import Mathlib

/-!
Theme and accordion managers of `script.js`.

A shallow embedding of the `ThemeManager` and `AccordionManager` classes of
`src/script.js`, together with the properties of the behavioural specification.

The browser environment the script talks to is made explicit:

* `localStorage` is an association list of key/value strings with the
  `getItem` / `setItem` semantics of the Web Storage interface;
* `window.matchMedia("(prefers-color-scheme: dark)").matches` is a boolean;
* `document.documentElement.classList` is a list of class names with the
  `add` / `remove` / `contains` semantics of a token list;
* the elements `#theme-icon` and `#theme-icon-mobile` are each either absent
  (`getElementById` returns `null`) or present with some `textContent`;
* for the accordion, the document is the list of its elements in document order, each
  with its `id`, `data-target`, `classList`, parent and the two inline styles the code
  assigns.

A thrown `TypeError` is the result `none`. Callbacks handed to `setTimeout` run after the
call that schedules them has returned and are left out.
-/

/-! ## Browser primitives -/

/-- The Web Storage area: key/value pairs of strings. -/
abbrev Storage := List (String × String)

/-- Model of `localStorage.getItem(key)`: the value of the first entry stored under `key`,
`none` standing for `null`. -/
def getItem : Storage → String → Option String
  | [], _ => none
  | (k, v) :: rest, key => if k = key then some v else getItem rest key

/-- Model of `localStorage.setItem(key, value)`: overwrite the entry stored under `key`,
or create it. -/
def setItem : Storage → String → String → Storage
  | [], key, value => [(key, value)]
  | (k, v) :: rest, key, value =>
    if k = key then (key, value) :: rest else (k, v) :: setItem rest key value

/-- JavaScript truthiness of the result of `getItem`: `null` and the empty string are falsy,
every other string is truthy. -/
def truthy : Option String → Bool
  | none => false
  | some v => decide (v ≠ "")

/-- Model of `classList.contains(c)`. -/
def classListContains (classList : List String) (c : String) : Bool :=
  decide (c ∈ classList)

/-- Model of `classList.add(c)`: the token is appended unless already there. -/
def classListAdd (classList : List String) (c : String) : List String :=
  if c ∈ classList then classList else classList ++ [c]

/-- Model of `classList.remove(c)`: every occurrence of the token is dropped. -/
def classListRemove (classList : List String) (c : String) : List String :=
  classList.filter (fun x => decide (x ≠ c))

/-! ## ThemeManager -/

/-- The part of the browser state the `ThemeManager` reads and writes. The field
`applyCalls` is a ghost log: it records the argument of every `applyTheme` call, in order,
and is read by no operation. -/
structure Page where
  /-- Contents of `localStorage`. -/
  localStorage : Storage
  /-- Value of `window.matchMedia("(prefers-color-scheme: dark)").matches`. -/
  prefersDark : Bool
  /-- Value of `document.documentElement.classList`. -/
  htmlClassList : List String
  /-- The `textContent` of `#theme-icon`, `none` when the element is absent. -/
  themeIcon : Option String
  /-- The `textContent` of `#theme-icon-mobile`, `none` when the element is absent. -/
  themeIconMobile : Option String
  /-- Ghost log of the arguments of the `applyTheme` calls made so far. -/
  applyCalls : List String
  deriving DecidableEq, Repr

namespace ThemeManager

/-- The field `this.storageKey` set by the constructor. -/
def storageKey : String := "craftive-theme"

/-- First string literal of the conditional in `updateThemeIcons` (shown for the dark theme),
character for character as it stands in the source file. -/
def darkThemeIcon : String := "â˜€ï¸"

/-- Second string literal of the conditional in `updateThemeIcons` (shown for every other
theme), character for character as it stands in the source file. -/
def lightThemeIcon : String := "ðŸŒ™"

/-- The expression `prefersDark ? "dark" : "light"` of `getCurrentTheme`, which is also the
expression `e.matches ? "dark" : "light"` of the media-query change handler. -/
def systemTheme (prefersDark : Bool) : String :=
  if prefersDark then "dark" else "light"

/-- Embedding of `getCurrentTheme()`. -/
def getCurrentTheme (p : Page) : String :=
  let savedTheme := getItem p.localStorage storageKey
  match savedTheme with
  | some saved => if truthy savedTheme then saved else systemTheme p.prefersDark
  | none => systemTheme p.prefersDark

/-- The expression `currentTheme === "dark" ? ... : ...` of `updateThemeIcons`. -/
def iconFor (currentTheme : String) : String :=
  if currentTheme = "dark" then darkThemeIcon else lightThemeIcon

/-- Embedding of `updateThemeIcons()`: each indicator that is present receives the icon of
the current theme, an absent one is skipped. -/
def updateThemeIcons (p : Page) : Page :=
  let currentTheme := getCurrentTheme p
  let icon := iconFor currentTheme
  { p with
    themeIcon := p.themeIcon.map (fun _ => icon)
    themeIconMobile := p.themeIconMobile.map (fun _ => icon) }

/-- Embedding of `applyTheme(theme)`. -/
def applyTheme (theme : String) (p : Page) : Page :=
  let p1 : Page :=
    if theme = "dark" then
      { p with htmlClassList := classListAdd p.htmlClassList "dark" }
    else
      { p with htmlClassList := classListRemove p.htmlClassList "dark" }
  let p2 : Page :=
    { p1 with
      localStorage := setItem p1.localStorage storageKey theme
      applyCalls := p1.applyCalls ++ [theme] }
  updateThemeIcons p2

/-- The expression `currentTheme === "dark" ? "light" : "dark"` of `toggleTheme`. -/
def flipTheme (currentTheme : String) : String :=
  if currentTheme = "dark" then "light" else "dark"

/-- Embedding of `toggleTheme()`. -/
def toggleTheme (p : Page) : Page :=
  let currentTheme := getCurrentTheme p
  let newTheme := flipTheme currentTheme
  applyTheme newTheme p

/-- Embedding of the `change` listener that `setupEventListeners` registers on the media
query; `isDark` is `e.matches`. -/
def systemChangeHandler (isDark : Bool) (p : Page) : Page :=
  if !truthy (getItem p.localStorage storageKey) then
    applyTheme (systemTheme isDark) p
  else
    p

/-- Embedding of `init()`, which the constructor runs. `setupEventListeners()` only
registers listeners and changes nothing in the page state. -/
def init (p : Page) : Page :=
  updateThemeIcons (applyTheme (getCurrentTheme p) p)

/-- The reapply step `applyTheme(getCurrentTheme())` of the `visibilitychange` and
`pageshow` listeners. -/
def reapply (p : Page) : Page :=
  applyTheme (getCurrentTheme p) p

/-- Embedding of the `visibilitychange` listener; `hidden` is `document.hidden`. -/
def onVisibilityChange (hidden : Bool) (p : Page) : Page :=
  if !hidden then reapply p else p

/-- Embedding of the `pageshow` listener; `persisted` is `event.persisted`. -/
def onPageShow (persisted : Bool) (p : Page) : Page :=
  if persisted then reapply p else p

/-- The operating system changes its colour-scheme preference to `isDark`: the media query
now matches accordingly and its `change` listener runs. -/
def systemPreferenceChange (isDark : Bool) (p : Page) : Page :=
  systemChangeHandler isDark { p with prefersDark := isDark }

/-- The things that can happen to a constructed `ThemeManager`. -/
inductive Event where
  /-- A call `applyTheme(theme)`. -/
  | apply (theme : String)
  /-- A call `toggleTheme()` (a click on either toggle button, or `toggleMode()`). -/
  | toggle
  /-- The system preference changes to the given value. -/
  | systemChange (isDark : Bool)
  /-- The document fires `visibilitychange` with the given `document.hidden`. -/
  | visibilityChange (hidden : Bool)
  /-- The window fires `pageshow` with the given `event.persisted`. -/
  | pageShow (persisted : Bool)
  deriving DecidableEq, Repr

/-- An `applyTheme` event carries one of the two themes. -/
def Event.WellFormed : Event → Prop
  | .apply theme => theme = "light" ∨ theme = "dark"
  | _ => True

instance (e : Event) : Decidable e.WellFormed := by
  cases e <;> unfold Event.WellFormed <;> infer_instance

/-- Effect of one event. -/
def step (p : Page) : Event → Page
  | .apply theme => applyTheme theme p
  | .toggle => toggleTheme p
  | .systemChange isDark => systemPreferenceChange isDark p
  | .visibilityChange hidden => onVisibilityChange hidden p
  | .pageShow persisted => onPageShow persisted p

/-- Effect of a sequence of events, oldest first. -/
def run (p : Page) (events : List Event) : Page :=
  events.foldl step p

/-- The state after `n` consecutive `toggleTheme()` calls. -/
def toggleN : Nat → Page → Page
  | 0, p => p
  | n + 1, p => toggleTheme (toggleN n p)

/-- The theme `c` flipped `n` times. -/
def flipN : Nat → String → String
  | 0, c => c
  | n + 1, c => flipTheme (flipN n c)

/-- The document marker: the root element carries the class `dark`. -/
def marker (p : Page) : Bool :=
  classListContains p.htmlClassList "dark"

/-- The value stored under the storage key. -/
def stored (p : Page) : Option String :=
  getItem p.localStorage storageKey

/-- Effect of a sequence of system-preference changes, oldest first. -/
def systemChanges (p : Page) (changes : List Bool) : Page :=
  changes.foldl (fun q isDark => systemPreferenceChange isDark q) p

/-- The page `p` is in step with a non-empty stored theme, and carries exactly the
indicators of `p0`. -/
def Synced (p0 p : Page) : Prop :=
  ∃ t, t ≠ "" ∧ stored p = some t ∧ marker p = decide (t = "dark") ∧
    p.themeIcon = p0.themeIcon.map (fun _ => iconFor t) ∧
    p.themeIconMobile = p0.themeIconMobile.map (fun _ => iconFor t)

/-- A fresh session on a system that prefers dark, with both indicators in the page. -/
def freshDarkPage : Page :=
  { localStorage := [], prefersDark := true, htmlClassList := [],
    themeIcon := some "", themeIconMobile := some "", applyCalls := [] }

/-- A session in which the empty string is stored under the storage key. -/
def emptyStoredPage : Page :=
  { localStorage := [("craftive-theme", "")], prefersDark := true, htmlClassList := [],
    themeIcon := some "", themeIconMobile := none, applyCalls := [] }

/-- A session in which `light` is stored while the system prefers dark and the marker is
set; only the desktop indicator is in the page. -/
def savedLightPage : Page :=
  { localStorage := [("other", "1"), ("craftive-theme", "light")], prefersDark := true,
    htmlClassList := ["dark"], themeIcon := some "?", themeIconMobile := none,
    applyCalls := [] }

end ThemeManager

/-! ## AccordionManager -/

/-- An element of the document, with the attributes and properties the accordion code
reads or writes. -/
structure Element where
  /-- The `id` attribute, `none` when the element has none. -/
  id : Option String
  /-- The `data-target` attribute, `none` when the element has none. -/
  dataTarget : Option String
  /-- The `classList` of the element. -/
  classList : List String
  /-- Position in the document of the parent element, `none` for an element without
  parent element. -/
  parent : Option Nat
  /-- The inline style property `style.maxHeight`. -/
  maxHeight : String
  /-- The inline style property `style.transform`. -/
  transform : String
  /-- The layout property `scrollHeight`. -/
  scrollHeight : Nat
  deriving DecidableEq, Repr

/-- The elements of the document, in document order. -/
abbrev Document := List Element

/-- The position of the first element, in document order, whose `id` attribute is `id`. -/
def firstWithId : Document → String → Option Nat
  | [], _ => none
  | e :: rest, id => if e.id = some id then some 0 else (firstWithId rest id).map (· + 1)

/-- Model of `document.getElementById(id)`: the position of the first element, in document
order, whose `id` attribute is `id`; `none` stands for `null`. The empty string names no
element: the result is `null` even when an element has an empty `id` attribute. -/
def getElementById (doc : Document) (id : String) : Option Nat :=
  if id = "" then none else firstWithId doc id

/-- The element at position `i` replaced by its image under `f`. -/
def modifyAt : Document → Nat → (Element → Element) → Document
  | [], _, _ => []
  | e :: rest, 0, f => f e :: rest
  | e :: rest, i + 1, f => e :: modifyAt rest i f

/-- Model of `element.closest("." + cls)` for the element at position `i`: the nearest
element among it and its ancestors that carries the class `cls`, `none` standing for
`null`. The walk up the ancestors is bounded by `fuel`; a chain of ancestors is never longer
than the document. -/
def closest (doc : Document) (cls : String) : Nat → Nat → Option Nat
  | 0, _ => none
  | fuel + 1, i =>
    match doc[i]? with
    | none => none
    | some e =>
      if classListContains e.classList cls then some i
      else
        match e.parent with
        | none => none
        | some j => closest doc cls fuel j

/-- The element carries the class `active`. -/
def Element.isActive (e : Element) : Bool :=
  classListContains e.classList "active"

/-- The element matches the selector `.faq-header`. -/
def Element.isHeader (e : Element) : Bool :=
  classListContains e.classList "faq-header"

/-- The element matches the selector `.faq-content`. -/
def Element.isContent (e : Element) : Bool :=
  classListContains e.classList "faq-content"

/-- The part of an element the accordion code never changes: its `id`, its parent, whether
it matches `.faq-item`, `.faq-header` and `.faq-content`, and its `data-target`. -/
def Element.skeleton (e : Element) :
    Option String × Option Nat × Bool × Bool × Bool × Option String :=
  (e.id, e.parent, classListContains e.classList "faq-item", e.isHeader, e.isContent,
    e.dataTarget)

/-- Whether the element at position `j` carries the class `active`; `none` when the
document has no such position. -/
def activeAt (doc : Document) (j : Nat) : Option Bool :=
  (doc[j]?).map Element.isActive

/-- The state the `AccordionManager` reads and writes: the document and its own field
`activeAccordion` (`none` standing for `null`). -/
structure Accordion where
  /-- The document. -/
  document : Document
  /-- The field `this.activeAccordion`. -/
  activeAccordion : Option String
  deriving DecidableEq, Repr

/-- Model of `element.classList.add(c)`. -/
def Element.addClass (c : String) (e : Element) : Element :=
  { e with classList := classListAdd e.classList c }

/-- Model of `element.classList.remove(c)`. -/
def Element.removeClass (c : String) (e : Element) : Element :=
  { e with classList := classListRemove e.classList c }

/-- Model of the assignment `element.style.maxHeight = value`. -/
def Element.setMaxHeight (value : String) (e : Element) : Element :=
  { e with maxHeight := value }

/-- Model of the assignment `element.style.transform = value`. -/
def Element.setTransform (value : String) (e : Element) : Element :=
  { e with transform := value }

/-- The element at position `j` does not carry `active` if it matches `.faq-header` or
`.faq-content`. -/
def Quiet (doc : Document) (j : Nat) : Prop :=
  ∀ e, doc[j]? = some e → (e.isHeader || e.isContent) = true → e.isActive = false

namespace AccordionManager

/-- The callback of `allHeaders.forEach` in `closeAllAccordions`, run on the elements that
`querySelectorAll(".faq-header")` selects and on no other. -/
def closeHeader (header : Element) : Element :=
  if header.isHeader then
    (header.removeClass "active").setTransform "translateX(0)"
  else header

/-- The callback of `allContents.forEach` in `closeAllAccordions`, run on the elements that
`querySelectorAll(".faq-content")` selects and on no other. -/
def closeContent (content : Element) : Element :=
  if content.isContent then
    (content.removeClass "active").setMaxHeight "0px"
  else content

/-- Embedding of `closeAllAccordions()`: first every `.faq-header` element, then every
`.faq-content` element is reset. -/
def closeAllAccordions (doc : Document) : Document :=
  (doc.map closeHeader).map closeContent

/-- Embedding of the synchronous part of `openAccordion(header, content, icon)`; `header` is
the position of the header element and `content` the result of `getElementById`. The result
`none` stands for a thrown `TypeError` (property access on `null`). The two `setTimeout`
callbacks run later; they only remove the class `pulse` and scroll the window. -/
def openAccordion (header : Nat) (content : Option Nat) (doc : Document) : Option Document :=
  let doc1 := modifyAt doc header (Element.addClass "active")
  match content with
  | none => none
  | some c =>
    let doc2 := modifyAt doc1 c (Element.addClass "active")
    let contentHeight := (doc2[c]?).map (fun e => e.scrollHeight)
    let doc3 := modifyAt doc2 c
      (Element.setMaxHeight (toString (contentHeight.getD 0) ++ "px"))
    match closest doc3 "faq-item" doc3.length header with
    | none => none
    | some faqItem => some (modifyAt doc3 faqItem (Element.addClass "pulse"))

/-- Embedding of `closeAccordion(header, content, icon)`; the result `none` stands for a
thrown `TypeError`. -/
def closeAccordion (header : Nat) (content : Option Nat) (doc : Document) : Option Document :=
  let doc1 := modifyAt doc header (Element.removeClass "active")
  match content with
  | none => none
  | some c =>
    let doc2 := modifyAt doc1 c (Element.removeClass "active")
    some (modifyAt doc2 c (Element.setMaxHeight "0px"))

/-- Embedding of `toggleAccordion(targetId, header)`; `header` is the position of the header
element in the document. The result `none` stands for a thrown `TypeError`. The lookup
`header.querySelector(".faq-icon")` has no effect and its result is not used by the callees. -/
def toggleAccordion (targetId : String) (header : Nat) (a : Accordion) : Option Accordion :=
  let content := getElementById a.document targetId
  match a.document[header]? with
  | none => none
  | some h =>
    let isCurrentlyActive := h.isActive
    let doc := closeAllAccordions a.document
    if !isCurrentlyActive then
      (openAccordion header content doc).map
        (fun d => { document := d, activeAccordion := some targetId })
    else
      (closeAccordion header content doc).map
        (fun d => { document := d, activeAccordion := none })

/-- Embedding of `closeAll()`. -/
def closeAll (a : Accordion) : Accordion :=
  { document := closeAllAccordions a.document, activeAccordion := none }

/-- A call made on the `AccordionManager`. -/
inductive Call where
  /-- The call `toggleAccordion(targetId, header)`. -/
  | toggle (targetId : String) (header : Nat)
  /-- The call `closeAll()`. -/
  | closeAll
  deriving DecidableEq, Repr

/-- Effect of a sequence of calls, oldest first; `none` as soon as one of them throws. -/
def runCalls (a : Accordion) : List Call → Option Accordion
  | [] => some a
  | .toggle targetId header :: rest =>
    match toggleAccordion targetId header a with
    | none => none
    | some a1 => runCalls a1 rest
  | .closeAll :: rest => runCalls (closeAll a) rest

/-- The number of `.faq-header` elements that carry the class `active`. -/
def activeHeaderCount (doc : Document) : Nat :=
  (doc.filter (fun e => e.isHeader && e.isActive)).length

/-- The header at position `header` is a `.faq-header` element whose `data-target` is
`targetId`, it lies inside a `.faq-item`, and `targetId` names an existing `.faq-content`
element. -/
def validToggle (doc : Document) (targetId : String) (header : Nat) : Bool :=
  ((doc[header]?).map Element.isHeader == some true) &&
  ((doc[header]?).map Element.dataTarget == some (some targetId)) &&
  (match getElementById doc targetId with
    | some c => (doc[c]?).map Element.isContent == some true
    | none => false) &&
  (closest doc "faq-item" doc.length header).isSome

/-- The content element named by `targetId` is not a `.faq-header` element other than the
header at position `header`. -/
def contentApart (doc : Document) (targetId : String) (header : Nat) : Bool :=
  match getElementById doc targetId with
  | some c => decide (c = header) || ((doc[c]?).map Element.isHeader != some true)
  | none => true

/-- A call whose arguments meet `validToggle`; `closeAll()` takes none. -/
def Call.valid (doc : Document) : Call → Bool
  | .toggle targetId header => validToggle doc targetId header
  | .closeAll => true

/-- A call whose arguments meet `contentApart`; `closeAll()` takes none. -/
def Call.apart (doc : Document) : Call → Bool
  | .toggle targetId header => contentApart doc targetId header
  | .closeAll => true

/-- The call is a `toggleAccordion` on a header that does not carry `active`, so that it
takes the branch that opens the header. -/
def Call.opens (doc : Document) : Call → Bool
  | .toggle _ header => activeAt doc header == some false
  | .closeAll => false

/-- One FAQ item holding two headers that both start out active, and their contents. -/
def bothOpenDoc : Document :=
  [ { id := none, dataTarget := none, classList := ["faq-item"], parent := none,
      maxHeight := "", transform := "", scrollHeight := 140 },
    { id := none, dataTarget := some "a", classList := ["faq-header", "active"],
      parent := some 0, maxHeight := "", transform := "", scrollHeight := 30 },
    { id := some "a", dataTarget := none, classList := ["faq-content", "active"],
      parent := some 0, maxHeight := "40px", transform := "", scrollHeight := 40 },
    { id := none, dataTarget := some "b", classList := ["faq-header", "active"],
      parent := some 0, maxHeight := "", transform := "", scrollHeight := 30 },
    { id := some "b", dataTarget := none, classList := ["faq-content", "active"],
      parent := some 0, maxHeight := "40px", transform := "", scrollHeight := 40 } ]

/-- Two FAQ items, each a `.faq-item` holding a header and its content; the first header
and both contents start out active. -/
def faqDoc : Document :=
  [ { id := none, dataTarget := none, classList := ["faq-item"], parent := none,
      maxHeight := "", transform := "", scrollHeight := 120 },
    { id := none, dataTarget := some "faq1", classList := ["faq-header", "active"],
      parent := some 0, maxHeight := "", transform := "", scrollHeight := 30 },
    { id := some "faq1", dataTarget := none, classList := ["faq-content", "active"],
      parent := some 0, maxHeight := "90px", transform := "", scrollHeight := 90 },
    { id := none, dataTarget := none, classList := ["faq-item"], parent := none,
      maxHeight := "", transform := "", scrollHeight := 30 },
    { id := none, dataTarget := some "faq2", classList := ["faq-header"],
      parent := some 3, maxHeight := "", transform := "", scrollHeight := 30 },
    { id := some "faq2", dataTarget := none, classList := ["faq-content", "active"],
      parent := some 3, maxHeight := "75px", transform := "", scrollHeight := 75 } ]

/-- One FAQ item whose header names, as its content, an element that matches both
`.faq-content` and `.faq-header`. -/
def dualDoc : Document :=
  [ { id := none, dataTarget := none, classList := ["faq-item"], parent := none,
      maxHeight := "", transform := "", scrollHeight := 70 },
    { id := none, dataTarget := some "x", classList := ["faq-header"], parent := some 0,
      maxHeight := "", transform := "", scrollHeight := 30 },
    { id := some "x", dataTarget := none, classList := ["faq-header", "faq-content"],
      parent := some 0, maxHeight := "0px", transform := "", scrollHeight := 40 } ]

end AccordionManager

/-! ## Lemmas on the browser primitives -/

theorem getItem_setItem_same (st : Storage) (key value : String) :
    getItem (setItem st key value) key = some value := by
  induction st with
  | nil => simp [setItem, getItem]
  | cons kv rest ih =>
    obtain ⟨k, v⟩ := kv
    by_cases h : k = key
    · simp [setItem, getItem, h]
    · simp [setItem, getItem, h, ih]

theorem setItem_setItem_same (st : Storage) (key value : String) :
    setItem (setItem st key value) key value = setItem st key value := by
  induction st with
  | nil => simp [setItem]
  | cons kv rest ih =>
    obtain ⟨k, v⟩ := kv
    by_cases h : k = key
    · simp [setItem, h]
    · simp [setItem, h, ih]

theorem classListContains_add (cl : List String) (c : String) :
    classListContains (classListAdd cl c) c = true := by
  unfold classListContains classListAdd
  by_cases h : c ∈ cl <;> simp [h]

theorem classListContains_remove (cl : List String) (c : String) :
    classListContains (classListRemove cl c) c = false := by
  simp [classListContains, classListRemove, List.mem_filter]

theorem classListAdd_add (cl : List String) (c : String) :
    classListAdd (classListAdd cl c) c = classListAdd cl c := by
  unfold classListAdd
  by_cases h : c ∈ cl <;> simp [h]

theorem classListRemove_remove (cl : List String) (c : String) :
    classListRemove (classListRemove cl c) c = classListRemove cl c := by
  simp [classListRemove, List.filter_filter]

namespace ThemeManager

/-! ## Lemmas on the theme operations -/

theorem systemTheme_ne_empty (b : Bool) : systemTheme b ≠ "" := by
  cases b <;> decide

theorem flipTheme_ne_empty (c : String) : flipTheme c ≠ "" := by
  unfold flipTheme
  split <;> decide

theorem getCurrentTheme_of_stored (p : Page) (t : String) (hs : stored p = some t)
    (ht : t ≠ "") : getCurrentTheme p = t := by
  unfold stored at hs
  simp [getCurrentTheme, hs, truthy, ht]

theorem getCurrentTheme_of_none (p : Page) (hs : stored p = none) :
    getCurrentTheme p = systemTheme p.prefersDark := by
  unfold stored at hs
  simp [getCurrentTheme, hs]

theorem getCurrentTheme_of_empty (p : Page) (hs : stored p = some "") :
    getCurrentTheme p = systemTheme p.prefersDark := by
  unfold stored at hs
  simp [getCurrentTheme, hs, truthy]

theorem getCurrentTheme_ne_empty (p : Page) : getCurrentTheme p ≠ "" := by
  cases hs : stored p with
  | none => rw [getCurrentTheme_of_none p hs]; exact systemTheme_ne_empty _
  | some t =>
    by_cases ht : t = ""
    · subst ht; rw [getCurrentTheme_of_empty p hs]; exact systemTheme_ne_empty _
    · rw [getCurrentTheme_of_stored p t hs ht]; exact ht

theorem stored_applyTheme (theme : String) (p : Page) :
    stored (applyTheme theme p) = some theme := by
  unfold stored applyTheme updateThemeIcons
  by_cases h : theme = "dark" <;> simp [h, getItem_setItem_same]

theorem getCurrentTheme_applyTheme (theme : String) (p : Page) (ht : theme ≠ "") :
    getCurrentTheme (applyTheme theme p) = theme :=
  getCurrentTheme_of_stored _ _ (stored_applyTheme theme p) ht

theorem marker_applyTheme (theme : String) (p : Page) :
    marker (applyTheme theme p) = decide (theme = "dark") := by
  unfold marker applyTheme updateThemeIcons
  by_cases h : theme = "dark"
  · simp [h, classListContains_add]
  · simp [h, classListContains_remove]

theorem applyCalls_applyTheme (theme : String) (p : Page) :
    (applyTheme theme p).applyCalls = p.applyCalls ++ [theme] := by
  unfold applyTheme updateThemeIcons
  by_cases h : theme = "dark" <;> simp [h]

/-- The state `applyTheme` hands to `updateThemeIcons`. -/
theorem applyTheme_eq (theme : String) (p : Page) :
    applyTheme theme p = updateThemeIcons
      { p with
        htmlClassList :=
          if theme = "dark" then classListAdd p.htmlClassList "dark"
          else classListRemove p.htmlClassList "dark"
        localStorage := setItem p.localStorage storageKey theme
        applyCalls := p.applyCalls ++ [theme] } := by
  unfold applyTheme
  by_cases h : theme = "dark" <;> simp [h]

theorem themeIcon_applyTheme (theme : String) (p : Page) (ht : theme ≠ "") :
    (applyTheme theme p).themeIcon = p.themeIcon.map (fun _ => iconFor theme) := by
  rw [applyTheme_eq]
  unfold updateThemeIcons
  have h : getCurrentTheme
      { p with
        htmlClassList :=
          if theme = "dark" then classListAdd p.htmlClassList "dark"
          else classListRemove p.htmlClassList "dark"
        localStorage := setItem p.localStorage storageKey theme
        applyCalls := p.applyCalls ++ [theme] } = theme :=
    getCurrentTheme_of_stored _ _ (getItem_setItem_same _ _ _) ht
  simp only [h]

theorem themeIconMobile_applyTheme (theme : String) (p : Page) (ht : theme ≠ "") :
    (applyTheme theme p).themeIconMobile = p.themeIconMobile.map (fun _ => iconFor theme) := by
  rw [applyTheme_eq]
  unfold updateThemeIcons
  have h : getCurrentTheme
      { p with
        htmlClassList :=
          if theme = "dark" then classListAdd p.htmlClassList "dark"
          else classListRemove p.htmlClassList "dark"
        localStorage := setItem p.localStorage storageKey theme
        applyCalls := p.applyCalls ++ [theme] } = theme :=
    getCurrentTheme_of_stored _ _ (getItem_setItem_same _ _ _) ht
  simp only [h]

theorem localStorage_applyTheme (theme : String) (p : Page) :
    (applyTheme theme p).localStorage = setItem p.localStorage storageKey theme := by
  rw [applyTheme_eq]; rfl

theorem htmlClassList_applyTheme (theme : String) (p : Page) :
    (applyTheme theme p).htmlClassList =
      if theme = "dark" then classListAdd p.htmlClassList "dark"
      else classListRemove p.htmlClassList "dark" := by
  rw [applyTheme_eq]; rfl

theorem flipTheme_flipTheme (c : String) (hc : c = "light" ∨ c = "dark") :
    flipTheme (flipTheme c) = c := by
  rcases hc with rfl | rfl <;> decide

theorem flipTheme_ne (c : String) : flipTheme c ≠ c := by
  unfold flipTheme
  by_cases h : c = "dark"
  · subst h; decide
  · simp only [h, if_false]; exact fun h2 => h h2.symm

theorem flipN_parity (n : Nat) (c : String) (hc : c = "light" ∨ c = "dark") :
    flipN n c = if n % 2 = 1 then flipTheme c else c := by
  induction n with
  | zero => rfl
  | succ k ih =>
    show flipTheme (flipN k c) = _
    rw [ih]
    rcases Nat.mod_two_eq_zero_or_one k with h | h
    · have h2 : (k + 1) % 2 = 1 := by omega
      simp [h, h2]
    · have h2 : (k + 1) % 2 = 0 := by omega
      simp [h, h2, flipTheme_flipTheme c hc]

theorem toggleTheme_eq (p : Page) :
    toggleTheme p = applyTheme (flipTheme (getCurrentTheme p)) p := rfl

theorem toggleN_resolved (n : Nat) (p : Page) :
    getCurrentTheme (toggleN n p) = flipN n (getCurrentTheme p) := by
  induction n with
  | zero => rfl
  | succ k ih =>
    show getCurrentTheme (toggleTheme (toggleN k p)) = flipTheme (flipN k (getCurrentTheme p))
    rw [toggleTheme_eq, getCurrentTheme_applyTheme _ _ (flipTheme_ne_empty _), ih]

theorem systemChangeHandler_of_truthy (isDark : Bool) (p : Page) (t : String)
    (hs : stored p = some t) (ht : t ≠ "") : systemChangeHandler isDark p = p := by
  unfold stored at hs
  simp [systemChangeHandler, hs, truthy, ht]

theorem systemChangeHandler_of_falsy (isDark : Bool) (p : Page)
    (hs : stored p = none ∨ stored p = some "") :
    systemChangeHandler isDark p = applyTheme (systemTheme isDark) p := by
  unfold stored at hs
  rcases hs with hs | hs <;> simp [systemChangeHandler, hs, truthy]

theorem systemPreferenceChange_of_truthy (isDark : Bool) (p : Page) (t : String)
    (hs : stored p = some t) (ht : t ≠ "") :
    systemPreferenceChange isDark p = { p with prefersDark := isDark } :=
  systemChangeHandler_of_truthy isDark { p with prefersDark := isDark } t hs ht

theorem systemChanges_frame (changes : List Bool) (p : Page) (t : String)
    (hs : stored p = some t) (ht : t ≠ "") :
    (systemChanges p changes).localStorage = p.localStorage ∧
    (systemChanges p changes).htmlClassList = p.htmlClassList ∧
    (systemChanges p changes).themeIcon = p.themeIcon ∧
    (systemChanges p changes).themeIconMobile = p.themeIconMobile ∧
    (systemChanges p changes).applyCalls = p.applyCalls := by
  induction changes generalizing p with
  | nil => exact ⟨rfl, rfl, rfl, rfl, rfl⟩
  | cons m rest ih =>
    have hstep : systemChanges p (m :: rest) =
        systemChanges { p with prefersDark := m } rest := by
      show systemChanges (systemPreferenceChange m p) rest = _
      rw [systemPreferenceChange_of_truthy m p t hs ht]
    rw [hstep]
    exact ih { p with prefersDark := m } hs

theorem getCurrentTheme_congr (p q : Page) (hl : q.localStorage = p.localStorage)
    (t : String) (hs : stored p = some t) (ht : t ≠ "") :
    getCurrentTheme q = getCurrentTheme p := by
  have hq : stored q = some t := by unfold stored at hs ⊢; rw [hl]; exact hs
  rw [getCurrentTheme_of_stored q t hq ht, getCurrentTheme_of_stored p t hs ht]

theorem synced_applyTheme (p0 p : Page) (t : String) (ht : t ≠ "")
    (hi : ∃ f, p.themeIcon = p0.themeIcon.map f)
    (hm : ∃ g, p.themeIconMobile = p0.themeIconMobile.map g) :
    Synced p0 (applyTheme t p) := by
  obtain ⟨f, hf⟩ := hi
  obtain ⟨g, hg⟩ := hm
  refine ⟨t, ht, stored_applyTheme t p, marker_applyTheme t p, ?_, ?_⟩
  · rw [themeIcon_applyTheme t p ht, hf, Option.map_map]; rfl
  · rw [themeIconMobile_applyTheme t p ht, hg, Option.map_map]; rfl

theorem synced_apply_of_synced (p0 p : Page) (t : String) (ht : t ≠ "") (h : Synced p0 p) :
    Synced p0 (applyTheme t p) := by
  obtain ⟨u, _, _, _, hi, hm⟩ := h
  exact synced_applyTheme p0 p t ht ⟨_, hi⟩ ⟨_, hm⟩

theorem synced_updateThemeIcons (p0 p : Page) (h : Synced p0 p) :
    Synced p0 (updateThemeIcons p) := by
  obtain ⟨t, ht, hs, hmk, hi, hm⟩ := h
  have hc : getCurrentTheme p = t := getCurrentTheme_of_stored p t hs ht
  refine ⟨t, ht, hs, hmk, ?_, ?_⟩
  · show p.themeIcon.map (fun _ => iconFor (getCurrentTheme p)) = _
    rw [hc, hi, Option.map_map]; rfl
  · show p.themeIconMobile.map (fun _ => iconFor (getCurrentTheme p)) = _
    rw [hc, hm, Option.map_map]; rfl

theorem synced_init (p0 : Page) : Synced p0 (init p0) :=
  synced_updateThemeIcons p0 _
    (synced_applyTheme p0 p0 _ (getCurrentTheme_ne_empty p0)
      ⟨id, by simp⟩ ⟨id, by simp⟩)

theorem synced_step (p0 p : Page) (e : Event) (he : e.WellFormed) (h : Synced p0 p) :
    Synced p0 (step p e) := by
  cases e with
  | apply theme =>
    have hne : theme ≠ "" := by
      rcases he with rfl | rfl <;> decide
    exact synced_apply_of_synced p0 p theme hne h
  | toggle => exact synced_apply_of_synced p0 p _ (flipTheme_ne_empty _) h
  | systemChange isDark =>
    obtain ⟨t, ht, hs, hmk, hi, hm⟩ := h
    show Synced p0 (systemPreferenceChange isDark p)
    rw [systemPreferenceChange_of_truthy isDark p t hs ht]
    exact ⟨t, ht, hs, hmk, hi, hm⟩
  | visibilityChange hidden =>
    cases hidden with
    | true => exact h
    | false => exact synced_apply_of_synced p0 p _ (getCurrentTheme_ne_empty p) h
  | pageShow persisted =>
    cases persisted with
    | false => exact h
    | true => exact synced_apply_of_synced p0 p _ (getCurrentTheme_ne_empty p) h

theorem synced_run (p0 : Page) (events : List Event) (p : Page)
    (he : ∀ e ∈ events, e.WellFormed) (h : Synced p0 p) : Synced p0 (run p events) := by
  induction events generalizing p with
  | nil => exact h
  | cons e rest ih =>
    show Synced p0 (run (step p e) rest)
    exact ih (step p e) (fun e2 h2 => he e2 (List.mem_cons_of_mem _ h2))
      (synced_step p0 p e (he e (List.mem_cons_self _ _)) h)

/-! ## Properties of the theme manager -/

/-- C1 (as amended): `getCurrentTheme` returns the stored value whenever a non-empty value
is stored under the storage key; when nothing is stored, or the empty string is, it returns
`dark` if the system prefers dark and `light` otherwise. -/
theorem getCurrentTheme_resolves (p : Page) :
    (∀ v, stored p = some v → v ≠ "" → getCurrentTheme p = v) ∧
    (stored p = none ∨ stored p = some "" →
      getCurrentTheme p = if p.prefersDark then "dark" else "light") := by
  refine ⟨fun v hs hv => getCurrentTheme_of_stored p v hs hv, fun h => ?_⟩
  rcases h with h | h
  · exact getCurrentTheme_of_none p h
  · exact getCurrentTheme_of_empty p h

/-- C1, witness: with `light` stored the result is `light` although the system prefers
dark, and in a fresh session on a dark system the result is `dark`. -/
theorem getCurrentTheme_resolves_witness :
    getCurrentTheme savedLightPage = "light" ∧ getCurrentTheme freshDarkPage = "dark" :=
  ⟨(getCurrentTheme_resolves savedLightPage).1 "light" (by decide) (by decide),
   (getCurrentTheme_resolves freshDarkPage).2 (Or.inl (by decide))⟩

/-- C1, counterexample to the claim as stated: the empty string is stored under the storage
key, yet `getCurrentTheme` does not return it; it returns the system theme. -/
theorem getCurrentTheme_empty_stored_counterexample :
    stored emptyStoredPage = some "" ∧ getCurrentTheme emptyStoredPage = "dark" ∧
    getCurrentTheme emptyStoredPage ≠ "" := by
  decide

/-- C2: for every page state and every theme `T` among `light` and `dark`, `applyTheme(T)`
followed by `getCurrentTheme()` returns `T`. -/
theorem applyTheme_then_getCurrentTheme (p : Page) (T : String)
    (hT : T = "light" ∨ T = "dark") : getCurrentTheme (applyTheme T p) = T := by
  apply getCurrentTheme_applyTheme
  rcases hT with rfl | rfl <;> decide

/-- C2, witness: applying `dark` on a page that has `light` stored. -/
theorem applyTheme_then_getCurrentTheme_witness :
    getCurrentTheme (applyTheme "dark" savedLightPage) = "dark" :=
  applyTheme_then_getCurrentTheme savedLightPage "dark" (Or.inr rfl)

/-- C3: from a state whose resolved theme `c0` is `light` or `dark`, after `n ≥ 1`
consecutive `toggleTheme()` calls the resolved theme and the stored value are `c0` flipped
`n` times, the marker is set exactly when that theme is `dark`, `c0` flipped `n` times is
the opposite of `c0` for odd `n` and `c0` for even `n`, and one more toggle yields a
different theme. -/
theorem toggleTheme_alternates (p : Page) (n : Nat)
    (hc : getCurrentTheme p = "light" ∨ getCurrentTheme p = "dark") (hn : 1 ≤ n) :
    getCurrentTheme (toggleN n p) = flipN n (getCurrentTheme p) ∧
    stored (toggleN n p) = some (flipN n (getCurrentTheme p)) ∧
    (marker (toggleN n p) = true ↔ flipN n (getCurrentTheme p) = "dark") ∧
    flipN n (getCurrentTheme p) =
      (if n % 2 = 1 then flipTheme (getCurrentTheme p) else getCurrentTheme p) ∧
    getCurrentTheme (toggleN (n + 1) p) ≠ getCurrentTheme (toggleN n p) := by
  refine ⟨toggleN_resolved n p, ?_, ?_, flipN_parity n _ hc, ?_⟩
  · obtain ⟨k, rfl⟩ : ∃ k, n = k + 1 := ⟨n - 1, by omega⟩
    show stored (toggleTheme (toggleN k p)) = some (flipTheme (flipN k (getCurrentTheme p)))
    rw [toggleTheme_eq, stored_applyTheme, toggleN_resolved]
  · obtain ⟨k, rfl⟩ : ∃ k, n = k + 1 := ⟨n - 1, by omega⟩
    show marker (toggleTheme (toggleN k p)) = true ↔
      flipTheme (flipN k (getCurrentTheme p)) = "dark"
    rw [toggleTheme_eq, marker_applyTheme, toggleN_resolved]
    simp
  · rw [toggleN_resolved, toggleN_resolved]
    exact flipTheme_ne _

/-- C3, witness: three toggles from a page that has `light` stored. -/
theorem toggleTheme_alternates_witness :
    getCurrentTheme (toggleN 3 savedLightPage) = flipN 3 (getCurrentTheme savedLightPage) ∧
    stored (toggleN 3 savedLightPage) = some (flipN 3 (getCurrentTheme savedLightPage)) ∧
    (marker (toggleN 3 savedLightPage) = true ↔
      flipN 3 (getCurrentTheme savedLightPage) = "dark") ∧
    flipN 3 (getCurrentTheme savedLightPage) =
      (if 3 % 2 = 1 then flipTheme (getCurrentTheme savedLightPage)
        else getCurrentTheme savedLightPage) ∧
    getCurrentTheme (toggleN (3 + 1) savedLightPage) ≠
      getCurrentTheme (toggleN 3 savedLightPage) :=
  toggleTheme_alternates savedLightPage 3 (Or.inl (by decide)) (by decide)

/-- C4 (as amended): the media-query change handler calls `applyTheme(m ? "dark" : "light")`
if and only if no non-empty value is stored under the storage key. When none is, the
resolved theme becomes `dark` for `m = true` and `light` for `m = false`, with the marker
set accordingly; when a non-empty value is stored the whole page state is left
unchanged. -/
theorem systemChangeHandler_applies_iff (p : Page) (m : Bool) :
    ((systemChangeHandler m p).applyCalls = p.applyCalls ++ [if m then "dark" else "light"] ↔
      ¬ ∃ v, stored p = some v ∧ v ≠ "") ∧
    ((¬ ∃ v, stored p = some v ∧ v ≠ "") →
      getCurrentTheme (systemChangeHandler m p) = (if m then "dark" else "light") ∧
      (marker (systemChangeHandler m p) = true ↔ m = true)) ∧
    ((∃ v, stored p = some v ∧ v ≠ "") → systemChangeHandler m p = p) := by
  have hfalsy : (¬ ∃ v, stored p = some v ∧ v ≠ "") →
      stored p = none ∨ stored p = some "" := by
    intro h
    cases hs : stored p with
    | none => exact Or.inl rfl
    | some v =>
      by_cases hv : v = ""
      · subst hv; exact Or.inr rfl
      · exact absurd ⟨v, hs, hv⟩ h
  refine ⟨⟨fun hcalls hex => ?_, fun h => ?_⟩, fun h => ⟨?_, ?_⟩, fun hex => ?_⟩
  · obtain ⟨v, hs, hv⟩ := hex
    rw [systemChangeHandler_of_truthy m p v hs hv] at hcalls
    simp at hcalls
  · rw [systemChangeHandler_of_falsy m p (hfalsy h), applyCalls_applyTheme]; rfl
  · rw [systemChangeHandler_of_falsy m p (hfalsy h)]
    exact getCurrentTheme_applyTheme _ _ (systemTheme_ne_empty m)
  · rw [systemChangeHandler_of_falsy m p (hfalsy h), marker_applyTheme]
    cases m <;> simp [systemTheme]
  · obtain ⟨v, hs, hv⟩ := hex
    exact systemChangeHandler_of_truthy m p v hs hv

/-- C4, witness: in a fresh session the change to dark is applied, and with `light` stored
it is ignored. -/
theorem systemChangeHandler_applies_iff_witness :
    (getCurrentTheme (systemChangeHandler true freshDarkPage) = "dark" ∧
      (marker (systemChangeHandler true freshDarkPage) = true ↔ true = true)) ∧
    systemChangeHandler true savedLightPage = savedLightPage :=
  ⟨(systemChangeHandler_applies_iff freshDarkPage true).2.1 (by decide),
   (systemChangeHandler_applies_iff savedLightPage true).2.2 ⟨"light", by decide, by decide⟩⟩

/-- C4, counterexample to the claim as stated: a value (the empty string) is stored under
the storage key, yet the handler calls `applyTheme("dark")` and overwrites the stored value
and the indicator. -/
theorem systemChangeHandler_empty_stored_counterexample :
    stored emptyStoredPage = some "" ∧
    (systemChangeHandler true emptyStoredPage).applyCalls =
      emptyStoredPage.applyCalls ++ ["dark"] ∧
    stored (systemChangeHandler true emptyStoredPage) = some "dark" ∧
    (systemChangeHandler true emptyStoredPage).themeIcon ≠ emptyStoredPage.themeIcon := by
  decide

/-- C5: once `applyTheme(T)`, with `T` among `light` and `dark`, or `toggleTheme()` has
run, every sequence of system-preference changes leaves the storage, the class list of the
document root, both indicators, the log of `applyTheme` calls and the resolved theme as they
were. -/
theorem explicit_choice_sticky (p : Page) (T : String) (changes : List Bool)
    (hT : T = "light" ∨ T = "dark") :
    ((systemChanges (applyTheme T p) changes).localStorage = (applyTheme T p).localStorage ∧
      (systemChanges (applyTheme T p) changes).htmlClassList = (applyTheme T p).htmlClassList ∧
      (systemChanges (applyTheme T p) changes).themeIcon = (applyTheme T p).themeIcon ∧
      (systemChanges (applyTheme T p) changes).themeIconMobile =
        (applyTheme T p).themeIconMobile ∧
      (systemChanges (applyTheme T p) changes).applyCalls = (applyTheme T p).applyCalls ∧
      getCurrentTheme (systemChanges (applyTheme T p) changes) = T) ∧
    ((systemChanges (toggleTheme p) changes).localStorage = (toggleTheme p).localStorage ∧
      (systemChanges (toggleTheme p) changes).htmlClassList = (toggleTheme p).htmlClassList ∧
      (systemChanges (toggleTheme p) changes).themeIcon = (toggleTheme p).themeIcon ∧
      (systemChanges (toggleTheme p) changes).themeIconMobile =
        (toggleTheme p).themeIconMobile ∧
      (systemChanges (toggleTheme p) changes).applyCalls = (toggleTheme p).applyCalls ∧
      getCurrentTheme (systemChanges (toggleTheme p) changes) =
        getCurrentTheme (toggleTheme p)) := by
  have hne : T ≠ "" := by rcases hT with rfl | rfl <;> decide
  have h1 := systemChanges_frame changes (applyTheme T p) T (stored_applyTheme T p) hne
  have h2 := systemChanges_frame changes (toggleTheme p) _
    (stored_applyTheme (flipTheme (getCurrentTheme p)) p) (flipTheme_ne_empty _)
  refine ⟨⟨h1.1, h1.2.1, h1.2.2.1, h1.2.2.2.1, h1.2.2.2.2, ?_⟩,
    ⟨h2.1, h2.2.1, h2.2.2.1, h2.2.2.2.1, h2.2.2.2.2, ?_⟩⟩
  · rw [getCurrentTheme_congr (applyTheme T p) _ h1.1 T (stored_applyTheme T p) hne]
    exact getCurrentTheme_applyTheme T p hne
  · exact getCurrentTheme_congr (toggleTheme p) _ h2.1 _
      (stored_applyTheme (flipTheme (getCurrentTheme p)) p) (flipTheme_ne_empty _)

/-- C5, witness: after a fresh dark session is switched to `light`, the system changing to
light and back to dark leaves the resolved theme `light`. -/
theorem explicit_choice_sticky_witness :
    getCurrentTheme (systemChanges (applyTheme "light" freshDarkPage) [false, true]) = "light" :=
  (explicit_choice_sticky freshDarkPage "light" [false, true] (Or.inl rfl)).1.2.2.2.2.2

/-- C6: in every state reached from construction by `applyTheme(T)` with `T` among `light`
and `dark`, `toggleTheme()`, system-preference changes, `visibilitychange` and `pageshow`
events, the document root carries the class `dark` exactly when the resolved theme is
`dark`, the resolved theme is the stored value whenever one is stored, and each indicator
that was in the page shows the icon of the resolved theme while an absent one stays
absent. -/
theorem synchronised_after_construction (p0 : Page) (events : List Event)
    (he : ∀ e ∈ events, e.WellFormed) :
    (marker (run (init p0) events) = true ↔ getCurrentTheme (run (init p0) events) = "dark") ∧
    (∀ v, stored (run (init p0) events) = some v →
      getCurrentTheme (run (init p0) events) = v) ∧
    (run (init p0) events).themeIcon =
      p0.themeIcon.map (fun _ => iconFor (getCurrentTheme (run (init p0) events))) ∧
    (run (init p0) events).themeIconMobile =
      p0.themeIconMobile.map (fun _ => iconFor (getCurrentTheme (run (init p0) events))) := by
  obtain ⟨t, ht, hs, hmk, hi, hm⟩ := synced_run p0 events (init p0) he (synced_init p0)
  have hc := getCurrentTheme_of_stored _ t hs ht
  rw [hc]
  refine ⟨?_, fun v hv => ?_, hi, hm⟩
  · rw [hmk]; simp
  · rw [hs] at hv; exact Option.some.inj hv

/-- C6, witness: a page with the empty string stored and no mobile indicator, constructed
and then toggled, sent a system change, re-shown and applied `light`. -/
theorem synchronised_after_construction_witness :
    (marker (run (init emptyStoredPage)
        [.toggle, .systemChange false, .pageShow true, .apply "light"]) = true ↔
      getCurrentTheme (run (init emptyStoredPage)
        [.toggle, .systemChange false, .pageShow true, .apply "light"]) = "dark") ∧
    (run (init emptyStoredPage)
        [.toggle, .systemChange false, .pageShow true, .apply "light"]).themeIconMobile =
      none :=
  ⟨(synchronised_after_construction emptyStoredPage
      [.toggle, .systemChange false, .pageShow true, .apply "light"] (by decide)).1,
   (synchronised_after_construction emptyStoredPage
      [.toggle, .systemChange false, .pageShow true, .apply "light"] (by decide)).2.2.2⟩

/-- C7: for every page state, running the reapply step `applyTheme(getCurrentTheme())` a
second time leaves the storage, the class list of the document root and both indicators as
the first run left them. -/
theorem reapply_idempotent (p : Page) :
    (reapply (reapply p)).localStorage = (reapply p).localStorage ∧
    (reapply (reapply p)).htmlClassList = (reapply p).htmlClassList ∧
    (reapply (reapply p)).themeIcon = (reapply p).themeIcon ∧
    (reapply (reapply p)).themeIconMobile = (reapply p).themeIconMobile := by
  have hne := getCurrentTheme_ne_empty p
  have hc : getCurrentTheme (reapply p) = getCurrentTheme p :=
    getCurrentTheme_applyTheme _ p hne
  have hr : reapply (reapply p) = applyTheme (getCurrentTheme p) (reapply p) := by
    show applyTheme (getCurrentTheme (reapply p)) (reapply p) = _
    rw [hc]
  rw [hr]
  show (applyTheme (getCurrentTheme p) (applyTheme (getCurrentTheme p) p)).localStorage =
      (applyTheme (getCurrentTheme p) p).localStorage ∧
    (applyTheme (getCurrentTheme p) (applyTheme (getCurrentTheme p) p)).htmlClassList =
      (applyTheme (getCurrentTheme p) p).htmlClassList ∧
    (applyTheme (getCurrentTheme p) (applyTheme (getCurrentTheme p) p)).themeIcon =
      (applyTheme (getCurrentTheme p) p).themeIcon ∧
    (applyTheme (getCurrentTheme p) (applyTheme (getCurrentTheme p) p)).themeIconMobile =
      (applyTheme (getCurrentTheme p) p).themeIconMobile
  refine ⟨?_, ?_, ?_, ?_⟩
  · rw [localStorage_applyTheme, localStorage_applyTheme, setItem_setItem_same]
  · rw [htmlClassList_applyTheme, htmlClassList_applyTheme]
    by_cases hd : getCurrentTheme p = "dark"
    · simp only [hd, if_true, classListAdd_add]
    · simp only [hd, if_false, classListRemove_remove]
  · rw [themeIcon_applyTheme _ _ hne, themeIcon_applyTheme _ _ hne, Option.map_map]; rfl
  · rw [themeIconMobile_applyTheme _ _ hne, themeIconMobile_applyTheme _ _ hne,
      Option.map_map]; rfl

/-- In a fresh session, with nothing stored under the storage key, after construction the
resolved theme is `dark` if the system prefers dark and `light` otherwise, the marker is set
exactly when the system prefers dark, and each indicator in the page holds the literal that
`updateThemeIcons` assigns for that theme. -/
theorem init_of_nothing_stored (p0 : Page) (h0 : stored p0 = none) :
    getCurrentTheme (init p0) = (if p0.prefersDark then "dark" else "light") ∧
    (marker (init p0) = true ↔ p0.prefersDark = true) ∧
    (init p0).themeIcon =
      p0.themeIcon.map (fun _ => if p0.prefersDark then "â˜€ï¸" else "ðŸŒ™") ∧
    (init p0).themeIconMobile =
      p0.themeIconMobile.map (fun _ => if p0.prefersDark then "â˜€ï¸" else "ðŸŒ™") := by
  have h0c : getCurrentTheme p0 = systemTheme p0.prefersDark := getCurrentTheme_of_none p0 h0
  have hst : stored (init p0) = some (systemTheme p0.prefersDark) := by
    show stored (updateThemeIcons (applyTheme (getCurrentTheme p0) p0)) = _
    rw [h0c]
    exact stored_applyTheme _ p0
  obtain ⟨t, ht, hs, hmk, hi, hm⟩ := synced_init p0
  have ht2 : t = systemTheme p0.prefersDark := by
    rw [hs] at hst; exact Option.some.inj hst
  subst ht2
  have hc := getCurrentTheme_of_stored _ _ hs ht
  refine ⟨hc, ?_, ?_, ?_⟩
  · rw [hmk]; cases p0.prefersDark <;> simp [systemTheme]
  · rw [hi]
    cases p0.prefersDark <;> simp [systemTheme, iconFor, darkThemeIcon, lightThemeIcon]
  · rw [hm]
    cases p0.prefersDark <;> simp [systemTheme, iconFor, darkThemeIcon, lightThemeIcon]

/-- C8, the code at the failing input: in the fresh session on a system that prefers dark,
after construction the resolved theme is `dark` and the marker is set, as claimed, but the
indicator holds the five characters U+00E2 U+02DC U+20AC U+00EF U+00B8 of the first literal
of `updateThemeIcons`, which is not the sun icon U+2600 U+FE0F. -/
theorem init_fresh_dark_indicator :
    stored freshDarkPage = none ∧ freshDarkPage.prefersDark = true ∧
    getCurrentTheme (init freshDarkPage) = "dark" ∧
    marker (init freshDarkPage) = true ∧
    (init freshDarkPage).themeIcon = some "â˜€ï¸" ∧
    (init freshDarkPage).themeIcon.map (fun t => t.data.map Char.toNat) =
      some [0xE2, 0x2DC, 0x20AC, 0xEF, 0xB8] ∧
    ("\u2600\uFE0F" : String).data.map Char.toNat = [0x2600, 0xFE0F] ∧
    (init freshDarkPage).themeIcon ≠ some "\u2600\uFE0F" := by
  decide

/-- C9: for every initial state, construction leaves a non-empty value stored under the
storage key, the system theme when nothing was stored before; and in every state reached
afterwards by `applyTheme(T)` with `T` among `light` and `dark`, toggles, reapply events and
system-preference changes a non-empty value is stored, the media-query change handler
leaves the whole state, the log of `applyTheme` calls included, unchanged, and a system
preference change does not change the resolved theme. -/
theorem construction_persists (p0 : Page) (events : List Event) (m : Bool)
    (he : ∀ e ∈ events, e.WellFormed) :
    (∃ v, stored (init p0) = some v ∧ v ≠ "") ∧
    (stored p0 = none →
      stored (init p0) = some (if p0.prefersDark then "dark" else "light")) ∧
    (∃ v, stored (run (init p0) events) = some v ∧ v ≠ "") ∧
    systemChangeHandler m (run (init p0) events) = run (init p0) events ∧
    (systemChangeHandler m (run (init p0) events)).applyCalls =
      (run (init p0) events).applyCalls ∧
    getCurrentTheme (systemPreferenceChange m (run (init p0) events)) =
      getCurrentTheme (run (init p0) events) := by
  obtain ⟨t0, ht0, hs0, -⟩ := synced_init p0
  obtain ⟨t, ht, hs, -⟩ := synced_run p0 events (init p0) he (synced_init p0)
  have hh := systemChangeHandler_of_truthy m _ t hs ht
  refine ⟨⟨t0, hs0, ht0⟩, fun h0 => ?_, ⟨t, hs, ht⟩, hh, by rw [hh], ?_⟩
  · show stored (updateThemeIcons (applyTheme (getCurrentTheme p0) p0)) = _
    rw [getCurrentTheme_of_none p0 h0]
    exact stored_applyTheme _ p0
  · rw [systemPreferenceChange_of_truthy m _ t hs ht]
    exact getCurrentTheme_congr _ _ rfl t hs ht

/-- C9, witness: a fresh dark session, constructed, toggled and re-shown; a later system
change to dark is ignored by the handler. -/
theorem construction_persists_witness :
    systemChangeHandler true (run (init freshDarkPage) [.toggle, .visibilityChange false]) =
      run (init freshDarkPage) [.toggle, .visibilityChange false] :=
  (construction_persists freshDarkPage [.toggle, .visibilityChange false] true
    (by decide)).2.2.2.1

end ThemeManager

/-! ## Lemmas on the document model -/

theorem classListContains_add_ne (cl : List String) (c d : String) (h : c ≠ d) :
    classListContains (classListAdd cl d) c = classListContains cl c := by
  unfold classListContains classListAdd
  by_cases hd : d ∈ cl <;> simp [hd, h]

theorem classListContains_remove_ne (cl : List String) (c d : String) (h : c ≠ d) :
    classListContains (classListRemove cl d) c = classListContains cl c := by
  simp [classListContains, classListRemove, List.mem_filter, h]

theorem getElem?_modifyAt (doc : Document) (i j : Nat) (f : Element → Element) :
    (modifyAt doc i f)[j]? = if j = i then (doc[j]?).map f else doc[j]? := by
  induction doc generalizing i j with
  | nil => cases i <;> simp [modifyAt]
  | cons e rest ih =>
    cases i with
    | zero =>
      cases j with
      | zero => simp [modifyAt]
      | succ j => simp [modifyAt]
    | succ i =>
      cases j with
      | zero => simp [modifyAt]
      | succ j => simp [modifyAt, ih]

theorem length_modifyAt (doc : Document) (i : Nat) (f : Element → Element) :
    (modifyAt doc i f).length = doc.length := by
  induction doc generalizing i with
  | nil => cases i <;> rfl
  | cons e rest ih =>
    cases i with
    | zero => rfl
    | succ i => simp [modifyAt, ih]

theorem map_skeleton_modifyAt (doc : Document) (i : Nat) (f : Element → Element)
    (hf : ∀ e, (f e).skeleton = e.skeleton) :
    (modifyAt doc i f).map Element.skeleton = doc.map Element.skeleton := by
  induction doc generalizing i with
  | nil => cases i <;> rfl
  | cons e rest ih =>
    cases i with
    | zero => simp [modifyAt, hf]
    | succ i => simp [modifyAt, ih]

theorem firstWithId_lt (doc : Document) (id : String) (c : Nat)
    (h : firstWithId doc id = some c) : c < doc.length := by
  induction doc generalizing c with
  | nil => simp [firstWithId] at h
  | cons e rest ih =>
    unfold firstWithId at h
    by_cases he : e.id = some id
    · simp [he] at h; subst h; simp
    · simp only [he, if_false, Option.map_eq_some'] at h
      obtain ⟨c2, hc2, rfl⟩ := h
      have := ih c2 hc2
      simp; omega

theorem firstWithId_congr (doc doc2 : Document) (id : String)
    (h : doc.map Element.skeleton = doc2.map Element.skeleton) :
    firstWithId doc id = firstWithId doc2 id := by
  induction doc generalizing doc2 with
  | nil =>
    cases doc2 with
    | nil => rfl
    | cons e2 rest2 => simp at h
  | cons e rest ih =>
    cases doc2 with
    | nil => simp at h
    | cons e2 rest2 =>
      simp only [List.map_cons, List.cons.injEq] at h
      have hid : e.id = e2.id := congrArg Prod.fst h.1
      simp only [firstWithId, hid, ih rest2 h.2]

theorem getElementById_empty (doc : Document) : getElementById doc "" = none := by
  simp [getElementById]

theorem getElementById_lt (doc : Document) (id : String) (c : Nat)
    (h : getElementById doc id = some c) : c < doc.length := by
  unfold getElementById at h
  by_cases hid : id = ""
  · simp [hid] at h
  · rw [if_neg hid] at h
    exact firstWithId_lt doc id c h

theorem getElementById_congr (doc doc2 : Document) (id : String)
    (h : doc.map Element.skeleton = doc2.map Element.skeleton) :
    getElementById doc id = getElementById doc2 id := by
  unfold getElementById
  rw [firstWithId_congr doc doc2 id h]

theorem getElem?_skeleton (doc doc2 : Document) (i : Nat)
    (h : doc.map Element.skeleton = doc2.map Element.skeleton) :
    (doc[i]?).map Element.skeleton = (doc2[i]?).map Element.skeleton := by
  rw [← List.getElem?_map, ← List.getElem?_map, h]

theorem length_of_skeleton (doc doc2 : Document)
    (h : doc.map Element.skeleton = doc2.map Element.skeleton) :
    doc.length = doc2.length := by
  simpa using congrArg List.length h

theorem closest_congr (doc doc2 : Document) (fuel i : Nat)
    (h : doc.map Element.skeleton = doc2.map Element.skeleton) :
    closest doc "faq-item" fuel i = closest doc2 "faq-item" fuel i := by
  induction fuel generalizing i with
  | zero => rfl
  | succ fuel ih =>
    have hi := getElem?_skeleton doc doc2 i h
    unfold closest
    cases h1 : doc[i]? with
    | none =>
      cases h2 : doc2[i]? with
      | none => rfl
      | some e2 => simp [h1, h2] at hi
    | some e1 =>
      cases h2 : doc2[i]? with
      | none => simp [h1, h2] at hi
      | some e2 =>
        simp only [h1, h2, Option.map_some', Option.some.injEq, Element.skeleton,
          Prod.mk.injEq] at hi
        obtain ⟨-, hp, hitem, -, -, -⟩ := hi
        simp only [hitem, hp]
        split
        · rfl
        · cases e2.parent with
          | none => rfl
          | some j => exact ih j

theorem filter_length_le_one (l : List Element) (P : Element → Bool) (i : Nat)
    (h : ∀ (j : Nat) (e : Element), l[j]? = some e → P e = true → j = i) :
    (l.filter P).length ≤ 1 := by
  induction l generalizing i with
  | nil => simp
  | cons x xs ih =>
    by_cases hx : P x = true
    · have h0 : 0 = i := h 0 x (by simp) hx
      have hnil : xs.filter P = [] := by
        rw [List.filter_eq_nil_iff]
        intro e he hPe
        obtain ⟨j, hj⟩ := List.getElem?_of_mem he
        have := h (j + 1) e (by simpa using hj) hPe
        omega
      simp [List.filter_cons, hx, hnil]
    · have hrest : ∀ (j : Nat) (e : Element), xs[j]? = some e → P e = true → j = i - 1 := by
        intro j e hj hPe
        have := h (j + 1) e (by simpa using hj) hPe
        omega
      simp only [List.filter_cons, hx]
      exact ih (i - 1) hrest

theorem filter_length_pos (l : List Element) (P : Element → Bool) (j : Nat) (e : Element)
    (hj : l[j]? = some e) (hP : P e = true) : 1 ≤ (l.filter P).length := by
  have hmem : e ∈ l.filter P := List.mem_filter.mpr ⟨List.getElem?_mem hj, hP⟩
  exact List.length_pos_of_mem hmem

theorem filter_length_ge_two (l : List Element) (P : Element → Bool) (i j : Nat)
    (ei ej : Element) (hij : i < j) (hi : l[i]? = some ei) (hj : l[j]? = some ej)
    (hPi : P ei = true) (hPj : P ej = true) : 2 ≤ (l.filter P).length := by
  induction l generalizing i j with
  | nil => simp at hi
  | cons x xs ih =>
    obtain ⟨j2, rfl⟩ : ∃ j2, j = j2 + 1 := ⟨j - 1, by omega⟩
    have hj2 : xs[j2]? = some ej := by simpa using hj
    cases i with
    | zero =>
      have hx : x = ei := by simpa using hi
      subst hx
      have := filter_length_pos xs P j2 ej hj2 hPj
      simp only [List.filter_cons, hPi, if_true, List.length_cons]
      omega
    | succ i2 =>
      have hi2 : xs[i2]? = some ei := by simpa using hi
      have := ih i2 j2 (by omega) hi2 hj2
      by_cases hx : P x = true
      · simp only [List.filter_cons, hx, if_true, List.length_cons]; omega
      · simp only [List.filter_cons, hx]; exact this

theorem filter_length_zero (l : List Element) (P : Element → Bool)
    (h : ∀ (j : Nat) (e : Element), l[j]? = some e → P e = true → False) :
    (l.filter P).length = 0 := by
  rw [List.length_eq_zero, List.filter_eq_nil_iff]
  intro e he hPe
  obtain ⟨j, hj⟩ := List.getElem?_of_mem he
  exact h j e hj hPe

theorem skeleton_addClass_active (e : Element) :
    (e.addClass "active").skeleton = e.skeleton := by
  simp [Element.skeleton, Element.addClass, Element.isHeader, Element.isContent,
    classListContains_add_ne]

theorem skeleton_addClass_pulse (e : Element) :
    (e.addClass "pulse").skeleton = e.skeleton := by
  simp [Element.skeleton, Element.addClass, Element.isHeader, Element.isContent,
    classListContains_add_ne]

theorem skeleton_removeClass_active (e : Element) :
    (e.removeClass "active").skeleton = e.skeleton := by
  simp [Element.skeleton, Element.removeClass, Element.isHeader, Element.isContent,
    classListContains_remove_ne]

theorem skeleton_setMaxHeight (v : String) (e : Element) :
    (e.setMaxHeight v).skeleton = e.skeleton := rfl

theorem skeleton_setTransform (v : String) (e : Element) :
    (e.setTransform v).skeleton = e.skeleton := rfl

theorem isActive_addClass_active (e : Element) : (e.addClass "active").isActive = true :=
  classListContains_add e.classList "active"

theorem isActive_addClass_pulse (e : Element) :
    (e.addClass "pulse").isActive = e.isActive :=
  classListContains_add_ne e.classList "active" "pulse" (by decide)

theorem isActive_removeClass_active (e : Element) :
    (e.removeClass "active").isActive = false :=
  classListContains_remove e.classList "active"

theorem isActive_setMaxHeight (v : String) (e : Element) :
    (e.setMaxHeight v).isActive = e.isActive := rfl

theorem isHeader_of_skeleton (e e2 : Element) (h : e.skeleton = e2.skeleton) :
    e.isHeader = e2.isHeader := by
  simp only [Element.skeleton, Prod.mk.injEq] at h
  exact h.2.2.2.1

theorem isContent_of_skeleton (e e2 : Element) (h : e.skeleton = e2.skeleton) :
    e.isContent = e2.isContent := by
  simp only [Element.skeleton, Prod.mk.injEq] at h
  exact h.2.2.2.2.1

theorem activeAt_modifyAt_ne (doc : Document) (i j : Nat) (f : Element → Element)
    (h : j ≠ i) : activeAt (modifyAt doc i f) j = activeAt doc j := by
  simp [activeAt, getElem?_modifyAt, h]

theorem activeAt_modifyAt_keep (doc : Document) (i j : Nat) (f : Element → Element)
    (hf : ∀ e, (f e).isActive = e.isActive) :
    activeAt (modifyAt doc i f) j = activeAt doc j := by
  unfold activeAt
  rw [getElem?_modifyAt]
  by_cases h : j = i
  · simp only [h, if_true]
    cases doc[i]? with
    | none => rfl
    | some e => simp [hf]
  · simp [h]

theorem activeAt_modifyAt_self (doc : Document) (j : Nat) (f : Element → Element) (b : Bool)
    (hf : ∀ e, (f e).isActive = b) (hj : j < doc.length) :
    activeAt (modifyAt doc j f) j = some b := by
  unfold activeAt
  rw [getElem?_modifyAt]
  simp [List.getElem?_eq_getElem hj, hf]

theorem activeAt_modifyAt_const (doc : Document) (i j : Nat) (f : Element → Element)
    (b : Bool) (hf : ∀ e, (f e).isActive = b) (h : activeAt doc j = some b) :
    activeAt (modifyAt doc i f) j = some b := by
  unfold activeAt at h ⊢
  rw [getElem?_modifyAt]
  by_cases hji : j = i
  · simp only [hji, if_true]
    rw [hji] at h
    cases hd : doc[i]? with
    | none => simp [hd] at h
    | some e => simp [hf]
  · simp only [hji, if_false]; exact h

theorem quiet_modifyAt_ne (doc : Document) (i j : Nat) (f : Element → Element)
    (h : j ≠ i) (hq : Quiet doc j) : Quiet (modifyAt doc i f) j := by
  intro e he
  rw [getElem?_modifyAt] at he
  simp only [h, if_false] at he
  exact hq e he

theorem quiet_modifyAt_keep (doc : Document) (i j : Nat) (f : Element → Element)
    (hs : ∀ e, (f e).skeleton = e.skeleton) (hf : ∀ e, (f e).isActive = e.isActive)
    (hq : Quiet doc j) : Quiet (modifyAt doc i f) j := by
  by_cases h : j = i
  · intro e he
    rw [getElem?_modifyAt] at he
    simp only [h, if_true] at he
    cases hd : doc[i]? with
    | none => simp [hd] at he
    | some e0 =>
      simp only [hd, Option.map_some', Option.some.injEq] at he
      subst he
      rw [isHeader_of_skeleton _ _ (hs e0), isContent_of_skeleton _ _ (hs e0), hf]
      exact hq e0 (by rw [h]; exact hd)
  · exact quiet_modifyAt_ne doc i j f h hq

namespace AccordionManager

/-! ## Lemmas on the accordion operations -/

theorem skeleton_closeHeader (e : Element) : (closeHeader e).skeleton = e.skeleton := by
  unfold closeHeader
  split
  · rw [skeleton_setTransform, skeleton_removeClass_active]
  · rfl

theorem skeleton_closeContent (e : Element) : (closeContent e).skeleton = e.skeleton := by
  unfold closeContent
  split
  · rw [skeleton_setMaxHeight, skeleton_removeClass_active]
  · rfl

theorem closeAllAccordions_skeleton (doc : Document) :
    (closeAllAccordions doc).map Element.skeleton = doc.map Element.skeleton := by
  unfold closeAllAccordions
  simp only [List.map_map]
  apply List.map_congr_left
  intro e _
  show (closeContent (closeHeader e)).skeleton = e.skeleton
  rw [skeleton_closeContent, skeleton_closeHeader]

theorem closeAllAccordions_quiet (doc : Document) (j : Nat) :
    Quiet (closeAllAccordions doc) j := by
  intro e he hflag
  unfold closeAllAccordions at he
  simp only [List.getElem?_map, Option.map_eq_some'] at he
  obtain ⟨e1, ⟨e0, -, rfl⟩, rfl⟩ := he
  have hH : (closeContent (closeHeader e0)).isHeader = e0.isHeader :=
    isHeader_of_skeleton _ _ (by rw [skeleton_closeContent, skeleton_closeHeader])
  have hC : (closeContent (closeHeader e0)).isContent = (closeHeader e0).isContent :=
    isContent_of_skeleton _ _ (skeleton_closeContent _)
  rw [hH, hC] at hflag
  by_cases hc : (closeHeader e0).isContent = true
  · unfold closeContent
    rw [if_pos hc]
    exact isActive_removeClass_active _
  · have hh : e0.isHeader = true := by
      simp only [Bool.not_eq_true] at hc
      simpa [hc] using hflag
    unfold closeContent
    rw [if_neg hc]
    unfold closeHeader
    rw [if_pos hh]
    exact isActive_removeClass_active _

theorem closeAllAccordions_length (doc : Document) :
    (closeAllAccordions doc).length = doc.length := by
  simp [closeAllAccordions]

theorem openAccordion_spec (doc : Document) (header c faqItem : Nat)
    (hh : header < doc.length) (hc : c < doc.length)
    (hitem : closest doc "faq-item" doc.length header = some faqItem) :
    ∃ doc2, openAccordion header (some c) doc = some doc2 ∧
      doc2.map Element.skeleton = doc.map Element.skeleton ∧
      (∀ j, j ≠ header → j ≠ c → Quiet doc j → Quiet doc2 j) ∧
      activeAt doc2 header = some true ∧ activeAt doc2 c = some true := by
  unfold openAccordion
  simp only
  generalize (toString ((((modifyAt (modifyAt doc header (Element.addClass "active")) c
    (Element.addClass "active"))[c]?).map (fun e => e.scrollHeight)).getD 0) ++ "px") = v
  have hsk : (modifyAt (modifyAt (modifyAt doc header (Element.addClass "active")) c
      (Element.addClass "active")) c (Element.setMaxHeight v)).map Element.skeleton =
      doc.map Element.skeleton := by
    rw [map_skeleton_modifyAt _ _ _ (skeleton_setMaxHeight v),
      map_skeleton_modifyAt _ _ _ skeleton_addClass_active,
      map_skeleton_modifyAt _ _ _ skeleton_addClass_active]
  rw [closest_congr _ doc _ _ hsk, length_of_skeleton _ _ hsk, hitem]
  refine ⟨_, rfl, ?_, ?_, ?_, ?_⟩
  · rw [map_skeleton_modifyAt _ _ _ skeleton_addClass_pulse, hsk]
  · intro j hjh hjc hq
    apply quiet_modifyAt_keep _ _ _ _ skeleton_addClass_pulse isActive_addClass_pulse
    apply quiet_modifyAt_ne _ _ _ _ hjc
    apply quiet_modifyAt_ne _ _ _ _ hjc
    exact quiet_modifyAt_ne _ _ _ _ hjh hq
  · rw [activeAt_modifyAt_keep _ _ _ _ isActive_addClass_pulse,
      activeAt_modifyAt_keep _ _ _ _ (isActive_setMaxHeight v)]
    apply activeAt_modifyAt_const _ _ _ _ true isActive_addClass_active
    exact activeAt_modifyAt_self _ _ _ true isActive_addClass_active hh
  · rw [activeAt_modifyAt_keep _ _ _ _ isActive_addClass_pulse,
      activeAt_modifyAt_keep _ _ _ _ (isActive_setMaxHeight v)]
    apply activeAt_modifyAt_self _ _ _ true isActive_addClass_active
    rw [length_modifyAt]; exact hc

theorem closeAccordion_spec (doc : Document) (header c : Nat)
    (hh : header < doc.length) (hc : c < doc.length) :
    ∃ doc2, closeAccordion header (some c) doc = some doc2 ∧
      doc2.map Element.skeleton = doc.map Element.skeleton ∧
      (∀ j, j ≠ header → j ≠ c → Quiet doc j → Quiet doc2 j) ∧
      activeAt doc2 header = some false ∧ activeAt doc2 c = some false := by
  unfold closeAccordion
  refine ⟨_, rfl, ?_, ?_, ?_, ?_⟩
  · rw [map_skeleton_modifyAt _ _ _ (skeleton_setMaxHeight _),
      map_skeleton_modifyAt _ _ _ skeleton_removeClass_active,
      map_skeleton_modifyAt _ _ _ skeleton_removeClass_active]
  · intro j hjh hjc hq
    apply quiet_modifyAt_ne _ _ _ _ hjc
    apply quiet_modifyAt_ne _ _ _ _ hjc
    exact quiet_modifyAt_ne _ _ _ _ hjh hq
  · rw [activeAt_modifyAt_keep _ _ _ _ (isActive_setMaxHeight _)]
    apply activeAt_modifyAt_const _ _ _ _ false isActive_removeClass_active
    exact activeAt_modifyAt_self _ _ _ false isActive_removeClass_active hh
  · rw [activeAt_modifyAt_keep _ _ _ _ (isActive_setMaxHeight _)]
    apply activeAt_modifyAt_self _ _ _ false isActive_removeClass_active
    rw [length_modifyAt]; exact hc

theorem toggleAccordion_spec (a : Accordion) (targetId : String) (header c : Nat)
    (h : Element) (hh : a.document[header]? = some h)
    (hc : getElementById a.document targetId = some c)
    (hitem : (closest a.document "faq-item" a.document.length header).isSome = true) :
    ∃ a2, toggleAccordion targetId header a = some a2 ∧
      a2.document.map Element.skeleton = a.document.map Element.skeleton ∧
      (∀ j, j ≠ header → j ≠ c → Quiet a2.document j) ∧
      activeAt a2.document header = some (!h.isActive) ∧
      activeAt a2.document c = some (!h.isActive) ∧
      a2.activeAccordion = (if h.isActive then none else some targetId) := by
  have hlen := closeAllAccordions_length a.document
  have hsk := closeAllAccordions_skeleton a.document
  have hhl : header < (closeAllAccordions a.document).length := by
    rw [hlen]
    exact (List.getElem?_eq_some.mp hh).1
  have hcl : c < (closeAllAccordions a.document).length := by
    rw [hlen]
    exact getElementById_lt _ _ _ hc
  obtain ⟨faqItem, hfi⟩ := Option.isSome_iff_exists.mp hitem
  have hfi2 : closest (closeAllAccordions a.document) "faq-item"
      (closeAllAccordions a.document).length header = some faqItem := by
    rw [closest_congr _ _ _ _ hsk, hlen, hfi]
  unfold toggleAccordion
  simp only [hh, hc]
  cases hact : h.isActive with
  | false =>
    obtain ⟨d, hd, hdsk, hdq, hdh, hdc⟩ :=
      openAccordion_spec (closeAllAccordions a.document) header c faqItem hhl hcl hfi2
    simp only [Bool.not_false, if_true, hd, Option.map_some', Bool.false_eq_true, if_false]
    exact ⟨_, rfl, hdsk.trans hsk,
      fun j hjh hjc => hdq j hjh hjc (closeAllAccordions_quiet _ j), hdh, hdc, rfl⟩
  | true =>
    obtain ⟨d, hd, hdsk, hdq, hdh, hdc⟩ :=
      closeAccordion_spec (closeAllAccordions a.document) header c hhl hcl
    simp only [Bool.not_true, Bool.false_eq_true, if_false, hd, Option.map_some', if_true]
    exact ⟨_, rfl, hdsk.trans hsk,
      fun j hjh hjc => hdq j hjh hjc (closeAllAccordions_quiet _ j), hdh, hdc, rfl⟩

theorem isHeaderAt_congr (doc doc2 : Document) (i : Nat)
    (h : doc.map Element.skeleton = doc2.map Element.skeleton) :
    (doc[i]?).map Element.isHeader = (doc2[i]?).map Element.isHeader := by
  have hi := congrArg (Option.map
    (fun s : Option String × Option Nat × Bool × Bool × Bool × Option String =>
    s.2.2.2.1)) (getElem?_skeleton doc doc2 i h)
  simpa [Option.map_map, Function.comp_def, Element.skeleton] using hi

theorem isContentAt_congr (doc doc2 : Document) (i : Nat)
    (h : doc.map Element.skeleton = doc2.map Element.skeleton) :
    (doc[i]?).map Element.isContent = (doc2[i]?).map Element.isContent := by
  have hi := congrArg (Option.map
    (fun s : Option String × Option Nat × Bool × Bool × Bool × Option String =>
    s.2.2.2.2.1)) (getElem?_skeleton doc doc2 i h)
  simpa [Option.map_map, Function.comp_def, Element.skeleton] using hi

theorem dataTargetAt_congr (doc doc2 : Document) (i : Nat)
    (h : doc.map Element.skeleton = doc2.map Element.skeleton) :
    (doc[i]?).map Element.dataTarget = (doc2[i]?).map Element.dataTarget := by
  have hi := congrArg (Option.map
    (fun s : Option String × Option Nat × Bool × Bool × Bool × Option String =>
      s.2.2.2.2.2)) (getElem?_skeleton doc doc2 i h)
  simpa [Option.map_map, Function.comp_def, Element.skeleton] using hi

theorem validToggle_congr (doc doc2 : Document) (targetId : String) (header : Nat)
    (h : doc.map Element.skeleton = doc2.map Element.skeleton) :
    validToggle doc targetId header = validToggle doc2 targetId header := by
  unfold validToggle
  rw [isHeaderAt_congr doc doc2 header h, dataTargetAt_congr doc doc2 header h,
    getElementById_congr doc doc2 targetId h,
    closest_congr doc doc2 _ _ h, length_of_skeleton doc doc2 h]
  cases getElementById doc2 targetId with
  | none => rfl
  | some c => simp only [isContentAt_congr doc doc2 c h]

theorem contentApart_congr (doc doc2 : Document) (targetId : String) (header : Nat)
    (h : doc.map Element.skeleton = doc2.map Element.skeleton) :
    contentApart doc targetId header = contentApart doc2 targetId header := by
  unfold contentApart
  rw [getElementById_congr doc doc2 targetId h]
  cases getElementById doc2 targetId with
  | none => rfl
  | some c => simp only [isHeaderAt_congr doc doc2 c h]

theorem call_valid_congr (doc doc2 : Document) (call : Call)
    (h : doc.map Element.skeleton = doc2.map Element.skeleton) :
    call.valid doc = call.valid doc2 := by
  cases call with
  | toggle targetId header => exact validToggle_congr doc doc2 targetId header h
  | closeAll => rfl

theorem call_apart_congr (doc doc2 : Document) (call : Call)
    (h : doc.map Element.skeleton = doc2.map Element.skeleton) :
    call.apart doc = call.apart doc2 := by
  cases call with
  | toggle targetId header => exact contentApart_congr doc doc2 targetId header h
  | closeAll => rfl

theorem closeAll_count (a : Accordion) : activeHeaderCount (closeAll a).document = 0 := by
  unfold activeHeaderCount
  apply filter_length_zero
  intro j e he hP
  simp only [Bool.and_eq_true] at hP
  have := closeAllAccordions_quiet a.document j e he (by simp [hP.1])
  rw [this] at hP
  exact absurd hP.2 (by decide)

theorem isActive_of_activeAt (doc : Document) (j : Nat) (e : Element) (b : Bool)
    (ha : activeAt doc j = some b) (he : doc[j]? = some e) : e.isActive = b := by
  simpa [activeAt, he] using ha

theorem toggleAccordion_count (a : Accordion) (targetId : String) (header : Nat)
    (hv : validToggle a.document targetId header = true) :
    ∃ a2, toggleAccordion targetId header a = some a2 ∧
      a2.document.map Element.skeleton = a.document.map Element.skeleton ∧
      (activeHeaderCount a2.document ≤ 1 ↔
        (activeAt a.document header = some false →
          contentApart a.document targetId header = true)) := by
  unfold validToggle at hv
  simp only [Bool.and_eq_true, beq_iff_eq] at hv
  obtain ⟨⟨⟨hhead, -⟩, hcont⟩, hitem⟩ := hv
  obtain ⟨h, hh, hhH⟩ := Option.map_eq_some'.mp hhead
  cases hc : getElementById a.document targetId with
  | none => simp [hc] at hcont
  | some c =>
    obtain ⟨a2, ht, hsk, hq, hah, hac, -⟩ :=
      toggleAccordion_spec a targetId header c h hh hc hitem
    have hbefore : activeAt a.document header = some h.isActive := by
      simp [activeAt, hh]
    have hhead2 : (a2.document[header]?).map Element.isHeader = some true := by
      rw [isHeaderAt_congr _ _ header hsk]; exact hhead
    refine ⟨a2, ht, hsk, ?_, ?_⟩
    · intro hcount hopen
      rw [hbefore] at hopen
      have hact : h.isActive = false := Option.some.inj hopen
      rw [hact] at hah hac
      by_contra hapart
      unfold contentApart at hapart
      simp only [hc, Bool.or_eq_true, decide_eq_true_eq, bne_iff_ne, ne_eq, not_or,
        not_not] at hapart
      obtain ⟨hne, hcH⟩ := hapart
      rw [isHeaderAt_congr _ _ c hsk.symm] at hcH
      obtain ⟨eh, heh, hehH⟩ := Option.map_eq_some'.mp hhead2
      obtain ⟨ec, hec, hecH⟩ := Option.map_eq_some'.mp hcH
      have hehA := isActive_of_activeAt _ _ _ _ hah heh
      have hecA := isActive_of_activeAt _ _ _ _ hac hec
      have htwo : 2 ≤ activeHeaderCount a2.document := by
        unfold activeHeaderCount
        rcases Nat.lt_or_ge c header with hlt | hge
        · exact filter_length_ge_two _ _ c header ec eh hlt hec heh
            (by simp [hecH, hecA]) (by simp [hehH, hehA])
        · exact filter_length_ge_two _ _ header c eh ec (by omega) heh hec
            (by simp [hehH, hehA]) (by simp [hecH, hecA])
      omega
    · intro himp
      unfold activeHeaderCount
      apply filter_length_le_one _ _ header
      intro j e he hP
      simp only [Bool.and_eq_true] at hP
      by_contra hjh
      by_cases hjc : j = c
      · subst hjc
        cases hact : h.isActive with
        | true =>
          rw [hact] at hac
          have := isActive_of_activeAt _ _ _ _ hac he
          rw [this] at hP
          exact absurd hP.2 (by decide)
        | false =>
          have ha := himp (by rw [hbefore, hact])
          unfold contentApart at ha
          simp only [hc, Bool.or_eq_true, decide_eq_true_eq, bne_iff_ne, ne_eq] at ha
          rcases ha with ha | ha
          · exact hjh ha
          · apply ha
            rw [← isHeaderAt_congr _ _ j hsk, he]
            simp [hP.1]
      · have := hq j hjh hjc e he (by simp [hP.1])
        rw [this] at hP
        exact absurd hP.2 (by decide)

theorem call_count (a : Accordion) (call : Call) (hv : call.valid a.document = true) :
    ∃ a2, runCalls a [call] = some a2 ∧
      a2.document.map Element.skeleton = a.document.map Element.skeleton ∧
      (activeHeaderCount a2.document ≤ 1 ↔
        (call.opens a.document = true → call.apart a.document = true)) := by
  cases call with
  | toggle targetId header =>
    obtain ⟨a2, ht, hsk, hiff⟩ := toggleAccordion_count a targetId header hv
    refine ⟨a2, by simp only [runCalls, ht], hsk, ?_⟩
    simpa [Call.opens, Call.apart] using hiff
  | closeAll =>
    refine ⟨closeAll a, rfl, closeAllAccordions_skeleton a.document, ?_⟩
    simp [closeAll_count, Call.opens]

theorem runCalls_ok (calls : List Call) (a : Accordion)
    (hv : ∀ call ∈ calls, call.valid a.document = true) :
    ∃ a2, runCalls a calls = some a2 ∧
      a2.document.map Element.skeleton = a.document.map Element.skeleton := by
  induction calls generalizing a with
  | nil => exact ⟨a, rfl, rfl⟩
  | cons call rest ih =>
    obtain ⟨a1, hrun1, hsk1, -⟩ := call_count a call (hv call (List.mem_cons_self _ _))
    have hstep : runCalls a (call :: rest) = runCalls a1 rest := by
      cases call with
      | toggle targetId header =>
        simp only [runCalls] at hrun1 ⊢
        cases ht : toggleAccordion targetId header a with
        | none => simp [ht] at hrun1
        | some a3 =>
          simp only [ht, Option.some.injEq] at hrun1
          rw [hrun1]
      | closeAll =>
        simp only [runCalls, Option.some.injEq] at hrun1 ⊢
        rw [hrun1]
    have hv1 : ∀ c ∈ rest, c.valid a1.document = true := by
      intro c hcmem
      rw [call_valid_congr _ _ c hsk1]
      exact hv c (List.mem_cons_of_mem _ hcmem)
    obtain ⟨a2, hrun2, hsk2⟩ := ih a1 hv1
    exact ⟨a2, hstep.trans hrun2, hsk2.trans hsk1⟩

theorem runCalls_append (xs ys : List Call) (a : Accordion) :
    runCalls a (xs ++ ys) = (runCalls a xs).bind (fun mid => runCalls mid ys) := by
  induction xs generalizing a with
  | nil => rfl
  | cons call rest ih =>
    cases call with
    | toggle targetId header =>
      simp only [List.cons_append, runCalls]
      cases toggleAccordion targetId header a with
      | none => rfl
      | some a1 => exact ih a1
    | closeAll =>
      simp only [List.cons_append, runCalls]
      exact ih (closeAll a)

/-! ## Properties of the accordion manager -/

/-- C10 (as amended): whenever the header `h` is an element of the document, `targetId`
names an existing element `c` and `h` lies inside a `.faq-item` (so in particular for every
`.faq-header` whose `data-target` names an existing `.faq-content` element),
`toggleAccordion(targetId, h)` returns, and afterwards no `.faq-header` or `.faq-content`
element other than `h` and `c` is active, `h` and `c` are active exactly when `h` was not
active before, and `activeAccordion` is `targetId` when `h` was opened and `null` when it
was closed. Hence every sequence of one or more such `toggleAccordion` calls and
`closeAll()` calls returns, and afterwards at most one `.faq-header` is active, except
exactly when the last call is a `toggleAccordion` that opens a header whose content element
is itself a `.faq-header` other than that header. -/
theorem toggleAccordion_exclusive :
    (∀ (a : Accordion) (targetId : String) (header c : Nat) (h : Element),
      a.document[header]? = some h →
      getElementById a.document targetId = some c →
      (closest a.document "faq-item" a.document.length header).isSome = true →
      ∃ a2, toggleAccordion targetId header a = some a2 ∧
        (∀ (j : Nat) (e : Element), a2.document[j]? = some e → j ≠ header → j ≠ c →
          (e.isHeader || e.isContent) = true → e.isActive = false) ∧
        activeAt a2.document header = some (!h.isActive) ∧
        activeAt a2.document c = some (!h.isActive) ∧
        a2.activeAccordion = (if h.isActive then none else some targetId)) ∧
    (∀ (a : Accordion) (calls : List Call) (last : Call),
      (∀ call ∈ calls ++ [last], call.valid a.document = true) →
      ∃ mid a2, runCalls a calls = some mid ∧ runCalls a (calls ++ [last]) = some a2 ∧
        (activeHeaderCount a2.document ≤ 1 ↔
          (last.opens mid.document = true → last.apart mid.document = true))) := by
  constructor
  · intro a targetId header c h hh hc hitem
    obtain ⟨a2, ht, -, hq, hah, hac, hacc⟩ :=
      toggleAccordion_spec a targetId header c h hh hc hitem
    exact ⟨a2, ht, fun j e he hjh hjc => hq j hjh hjc e he, hah, hac, hacc⟩
  · intro a calls last hv
    obtain ⟨mid, hmid, hsk⟩ := runCalls_ok calls a
      (fun call hc => hv call (List.mem_append_left _ hc))
    have hlast : last.valid mid.document = true := by
      rw [call_valid_congr _ _ last hsk]
      exact hv last (List.mem_append_right _ (List.mem_singleton_self _))
    obtain ⟨a2, hrun, -, hiff⟩ := call_count mid last hlast
    refine ⟨mid, a2, hmid, ?_, hiff⟩
    rw [runCalls_append, hmid]
    exact hrun

/-- C10, witness: in the two-item document the inactive second header is toggled open, and
after a toggle, a `closeAll()` and a last toggle at most one header is active. -/
theorem toggleAccordion_exclusive_witness :
    (∃ a2, toggleAccordion "faq2" 4 { document := faqDoc, activeAccordion := none } = some a2 ∧
      (∀ (j : Nat) (e : Element), a2.document[j]? = some e → j ≠ 4 → j ≠ 5 →
        (e.isHeader || e.isContent) = true → e.isActive = false) ∧
      activeAt a2.document 4 = some true ∧
      activeAt a2.document 5 = some true ∧
      a2.activeAccordion = some "faq2") ∧
    (∃ mid a2,
      runCalls { document := faqDoc, activeAccordion := none }
        [.toggle "faq2" 4, .closeAll] = some mid ∧
      runCalls { document := faqDoc, activeAccordion := none }
        ([.toggle "faq2" 4, .closeAll] ++ [.toggle "faq1" 1]) = some a2 ∧
      (activeHeaderCount a2.document ≤ 1 ↔
        ((Call.toggle "faq1" 1).opens mid.document = true →
          (Call.toggle "faq1" 1).apart mid.document = true))) :=
  ⟨toggleAccordion_exclusive.1 { document := faqDoc, activeAccordion := none } "faq2" 4 5
      { id := none, dataTarget := some "faq2", classList := ["faq-header"],
        parent := some 3, maxHeight := "", transform := "", scrollHeight := 30 }
      (by decide) (by decide) (by decide),
   toggleAccordion_exclusive.2 { document := faqDoc, activeAccordion := none }
      [.toggle "faq2" 4, .closeAll] (.toggle "faq1" 1) (by decide)⟩

/-- C10, counterexample to the claim as stated. First, the header at position 1 of
`dualDoc` is a `.faq-header` inside a `.faq-item` whose `data-target` names an existing
`.faq-content` element, which is also a `.faq-header`; after the single call
`toggleAccordion("x", header)` two headers are active. Second, after the empty sequence of
calls the two headers that `bothOpenDoc` starts with are still both active. -/
theorem toggleAccordion_dual_counterexample :
    (Call.valid dualDoc (.toggle "x" 1) = true ∧
      (runCalls { document := dualDoc, activeAccordion := none } [.toggle "x" 1]).map
        (fun a => activeHeaderCount a.document) = some 2) ∧
    (runCalls { document := bothOpenDoc, activeAccordion := none } []).map
      (fun a => activeHeaderCount a.document) = some 2 := by
  decide

end AccordionManager
